import Mathlib

/-!
Shallow embedding of the three demo programs of the repository
`implicit-interfacing` (Go):

* `demos/api-call/main.go` — `GetUser` over an `HTTPClient` capability;
* `demos/rng/main.go` — `NameGenerator.GenerateName` over a `StringGenerator`
  capability, and the production `RandomStringGenerator.Generate`;
* `demos/sleeper/main.go` — `Worker.DoWork` over a `Sleeper` capability.

Conventions: Go's `(T, error)` multiple return is modelled as a record with an
`Option Err` field; a capability that returns `(value, error)` where exactly
one side is meaningful is modelled as `Except Err value`; `time.Duration` is
`Int` (nanoseconds); Go `int` is `Int`.
-/

/-- Go `error` values as produced in this repository: either a leaf error with
a message, or `fmt.Errorf("prefix%w", cause)` which wraps a cause and whose
`Error()` string is the prefix followed by the cause's message. -/
inductive Err where
  | mk (msg : String)
  | wrap (pre : String) (cause : Err)
deriving DecidableEq, Repr

/-- The `Error()` string of an error value. -/
def Err.message : Err → String
  | .mk s => s
  | .wrap p c => p ++ c.message

/-- The struct `User` from `demos/api-call/main.go`: a struct with a single `Name` field
carrying the JSON tag `name`. -/
structure User where
  name : String
deriving DecidableEq, Repr

/-! ### JSON values and the parser backing `json.Unmarshal`

`encoding/json` first requires the body to be one well-formed JSON value
(surrounded by optional whitespace), then decodes it into the target struct.
We model the wire format with a small JSON value type and a recursive-descent
grammar check faithful to the JSON grammar `encoding/json` accepts. -/

/-- A parsed JSON value.  Numbers keep their lexeme, as `encoding/json` does
until a target type forces a conversion (never the case for `User`). -/
inductive Json where
  | null
  | bool (b : Bool)
  | num (lexeme : String)
  | str (s : String)
  | arr (elems : List Json)
  | obj (fields : List (String × Json))

/-- JSON insignificant whitespace (RFC 8259, as accepted by `encoding/json`). -/
def isJsonWs (c : Char) : Bool :=
  c = ' ' || c = '\t' || c = '\n' || c = '\r'

/-- Skip leading JSON whitespace. -/
def skipWs : List Char → List Char
  | [] => []
  | c :: rest => if isJsonWs c then skipWs rest else c :: rest

/-- Value of a hexadecimal digit. -/
def hexDigit (c : Char) : Option Nat :=
  if '0' ≤ c ∧ c ≤ '9' then some (c.toNat - '0'.toNat)
  else if 'a' ≤ c ∧ c ≤ 'f' then some (c.toNat - 'a'.toNat + 10)
  else if 'A' ≤ c ∧ c ≤ 'F' then some (c.toNat - 'A'.toNat + 10)
  else none

def isDigit (c : Char) : Bool := '0' ≤ c ∧ c ≤ '9'

/-- Lex the integer part of a JSON number after an optional minus sign:
either a single `0`, or a nonzero digit followed by digits (no leading
zeros). Returns the consumed digits and the rest. -/
def lexIntPart : List Char → Option (List Char × List Char)
  | [] => none
  | c :: rest =>
    if c = '0' then some ([c], rest)
    else if isDigit c then
      let digits := rest.takeWhile isDigit
      some (c :: digits, rest.dropWhile isDigit)
    else none

/-- Lex an optional fraction part `.digits`. -/
def lexFracPart : List Char → Option (List Char × List Char)
  | '.' :: rest =>
    let digits := rest.takeWhile isDigit
    if digits.isEmpty then none
    else some ('.' :: digits, rest.dropWhile isDigit)
  | cs => some ([], cs)

/-- Lex an optional exponent part `e[+-]?digits` / `E[+-]?digits`. -/
def lexExpPart : List Char → Option (List Char × List Char)
  | c :: rest =>
    if c = 'e' ∨ c = 'E' then
      match rest with
      | s :: rest2 =>
        if s = '+' ∨ s = '-' then
          let digits := rest2.takeWhile isDigit
          if digits.isEmpty then none
          else some (c :: s :: digits, rest2.dropWhile isDigit)
        else
          let digits := rest.takeWhile isDigit
          if digits.isEmpty then none
          else some (c :: digits, rest.dropWhile isDigit)
      | [] => none
    else some ([], c :: rest)
  | [] => some ([], [])

/-- Lex a JSON number (with optional leading minus) and return it as a
`Json.num` with its lexeme, or fail. -/
def lexNumber (cs : List Char) : Option (Json × List Char) := do
  let (neg, cs1) :=
    match cs with
    | '-' :: rest => (['-'], rest)
    | _ => (([] : List Char), cs)
  let (ip, cs2) ← lexIntPart cs1
  let (fp, cs3) ← lexFracPart cs2
  let (ep, cs4) ← lexExpPart cs3
  pure (Json.num (String.mk (neg ++ ip ++ fp ++ ep)), cs4)

/-- Decode a `\uXXXX` escape: four hex digits; an unpaired surrogate becomes
U+FFFD as `encoding/json` does; a high surrogate immediately followed by
`\uXXXX` with a low surrogate combines into the supplementary code point.
Returns the decoded character and the remaining input. -/
def decodeUnicodeEscape : List Char → Option (Char × List Char)
  | a :: b :: c :: d :: rest => do
    let ha ← hexDigit a
    let hb ← hexDigit b
    let hc ← hexDigit c
    let hd ← hexDigit d
    let n := ((ha * 16 + hb) * 16 + hc) * 16 + hd
    if 0xD800 ≤ n ∧ n ≤ 0xDBFF then
      match rest with
      | '\\' :: 'u' :: a2 :: b2 :: c2 :: d2 :: rest2 => do
        let ha2 ← hexDigit a2
        let hb2 ← hexDigit b2
        let hc2 ← hexDigit c2
        let hd2 ← hexDigit d2
        let n2 := ((ha2 * 16 + hb2) * 16 + hc2) * 16 + hd2
        if 0xDC00 ≤ n2 ∧ n2 ≤ 0xDFFF then
          pure (Char.ofNat (0x10000 + (n - 0xD800) * 0x400 + (n2 - 0xDC00)), rest2)
        else
          pure (Char.ofNat 0xFFFD, rest)
      | _ => pure (Char.ofNat 0xFFFD, rest)
    else if 0xDC00 ≤ n ∧ n ≤ 0xDFFF then
      pure (Char.ofNat 0xFFFD, rest)
    else
      pure (Char.ofNat n, rest)
  | _ => none

/-- Parse the body of a JSON string after the opening quote, handling the
escapes `encoding/json` accepts and rejecting raw control characters.
`fuel` bounds recursion; callers supply more fuel than input characters. -/
def parseStringBody : Nat → List Char → List Char → Option (String × List Char)
  | 0, _, _ => none
  | _ + 1, [], _ => none
  | fuel + 1, c :: rest, acc =>
    if c = '"' then some (String.mk acc.reverse, rest)
    else if c = '\\' then
      match rest with
      | [] => none
      | e :: rest2 =>
        if e = '"' then parseStringBody fuel rest2 ('"' :: acc)
        else if e = '\\' then parseStringBody fuel rest2 ('\\' :: acc)
        else if e = '/' then parseStringBody fuel rest2 ('/' :: acc)
        else if e = 'b' then parseStringBody fuel rest2 ('\x08' :: acc)
        else if e = 'f' then parseStringBody fuel rest2 ('\x0c' :: acc)
        else if e = 'n' then parseStringBody fuel rest2 ('\n' :: acc)
        else if e = 'r' then parseStringBody fuel rest2 ('\r' :: acc)
        else if e = 't' then parseStringBody fuel rest2 ('\t' :: acc)
        else if e = 'u' then
          match decodeUnicodeEscape rest2 with
          | some (ch, rest3) => parseStringBody fuel rest3 (ch :: acc)
          | none => none
        else none
    else if c.toNat < 0x20 then none
    else parseStringBody fuel rest (c :: acc)

mutual

/-- Parse one JSON value (leading whitespace allowed). -/
def parseValue : Nat → List Char → Option (Json × List Char)
  | 0, _ => none
  | fuel + 1, cs =>
    match skipWs cs with
    | '{' :: rest =>
      match skipWs rest with
      | '}' :: rest2 => some (Json.obj [], rest2)
      | rest2 => parseMembers fuel rest2 []
    | '[' :: rest =>
      match skipWs rest with
      | ']' :: rest2 => some (Json.arr [], rest2)
      | rest2 => parseElements fuel rest2 []
    | '"' :: rest =>
      match parseStringBody (fuel + 1) rest [] with
      | some (s, rest2) => some (Json.str s, rest2)
      | none => none
    | 't' :: 'r' :: 'u' :: 'e' :: rest => some (Json.bool true, rest)
    | 'f' :: 'a' :: 'l' :: 's' :: 'e' :: rest => some (Json.bool false, rest)
    | 'n' :: 'u' :: 'l' :: 'l' :: rest => some (Json.null, rest)
    | cs2 => lexNumber cs2

/-- Parse `"key" : value ( , "key" : value )* }` — the members of a
non-empty object, positioned at the first key. -/
def parseMembers : Nat → List Char → List (String × Json) →
    Option (Json × List Char)
  | 0, _, _ => none
  | fuel + 1, cs, acc =>
    match cs with
    | '"' :: rest =>
      match parseStringBody (fuel + 1) rest [] with
      | none => none
      | some (key, rest2) =>
        match skipWs rest2 with
        | ':' :: rest3 =>
          match parseValue fuel rest3 with
          | none => none
          | some (v, rest4) =>
            match skipWs rest4 with
            | ',' :: rest5 => parseMembers fuel (skipWs rest5) ((key, v) :: acc)
            | '}' :: rest5 => some (Json.obj ((key, v) :: acc).reverse, rest5)
            | _ => none
        | _ => none
    | _ => none

/-- Parse `value ( , value )* ]` — the elements of a non-empty array,
positioned at the first element. -/
def parseElements : Nat → List Char → List Json → Option (Json × List Char)
  | 0, _, _ => none
  | fuel + 1, cs, acc =>
    match parseValue fuel cs with
    | none => none
    | some (v, rest) =>
      match skipWs rest with
      | ',' :: rest2 => parseElements fuel rest2 (v :: acc)
      | ']' :: rest2 => some (Json.arr (v :: acc).reverse, rest2)
      | _ => none

end

/-- Parse a complete JSON document: one value, optional surrounding
whitespace, nothing after it — exactly what `json.Unmarshal` demands of its
input before decoding. -/
def Json.parse (s : String) : Option Json :=
  match parseValue (s.length + 1) s.data with
  | some (j, rest) => if (skipWs rest).isEmpty then some j else none
  | none => none

/-! ### `json.Unmarshal` into `User` -/

/-- ASCII-case-insensitive string equality.  `encoding/json` matches JSON
object keys to struct field tags case-insensitively (Unicode simple folding;
for the tag `name` this coincides with ASCII folding, since no non-ASCII
character simple-folds to any of `n`, `a`, `m`, `e`). -/
def eqFoldAscii (a b : String) : Bool :=
  a.data.map (fun c => if 'A' ≤ c ∧ c ≤ 'Z' then Char.ofNat (c.toNat + 32) else c)
    == b.data.map (fun c => if 'A' ≤ c ∧ c ≤ 'Z' then Char.ofNat (c.toNat + 32) else c)

/-- The kind word `encoding/json` uses in type-mismatch messages. -/
def jsonKindName : Json → String
  | .null => "null"
  | .bool _ => "bool"
  | .num _ => "number"
  | .str _ => "string"
  | .arr _ => "array"
  | .obj _ => "object"

/-- Decode object members into a `User`, in member order: a key matching the
`name` tag (case-insensitively) with a string value sets the field, with
`null` is a no-op, with any other value is a type error; other keys are
ignored.  `encoding/json` saves the first such error and still returns it
after the scan, which is observationally the same as stopping at it. -/
def decodeUserFields : List (String × Json) → User → Except Err User
  | [], u => .ok u
  | (k, v) :: rest, u =>
    if eqFoldAscii k "name" then
      match v with
      | .str s => decodeUserFields rest { name := s }
      | .null => decodeUserFields rest u
      | v =>
        .error (.mk ("json: cannot unmarshal " ++ jsonKindName v ++
          " into Go struct field User.name of type string"))
    else decodeUserFields rest u

/-- Model of `json.Unmarshal(body, &user)` where `user` starts as the zero `User`:
the body must be one well-formed JSON document; `null` leaves the struct
untouched; an object is decoded field by field; any other top-level value is
a type error.  (The exact text of a syntax-error message is abstracted; the
code only ever surfaces it behind the `failed to parse user: ` marker.) -/
def unmarshalUser (body : String) : Except Err User :=
  match Json.parse body with
  | none => .error (.mk "invalid JSON document")
  | some .null => .ok { name := "" }
  | some (.obj fields) => decodeUserFields fields { name := "" }
  | some j =>
    .error (.mk ("json: cannot unmarshal " ++ jsonKindName j ++
      " into Go value of type main.User"))

/-! ### `GetUser` over the `HTTPClient` capability -/

/-- An `*http.Response` as `GetUser` consumes it: the status code, and the
body stream abstracted by the outcome of `io.ReadAll` on it — either the full
contents or a read error. -/
structure Response where
  statusCode : Int
  bodyRead : Except Err String

/-- The `HTTPClient` capability: `Get(url)` returns either a response or an
error (Go returns the pair `(*http.Response, error)` with exactly one side
meaningful; `GetUser` dereferences the response only after the `err != nil`
check). -/
def HTTPClient : Type := String → Except Err Response

/-- What a call to `GetUser` produces: Go's `(User, error)` return pair,
plus whether the deferred `resp.Body.Close()` ran before returning. -/
structure GetUserResult where
  user : User
  err : Option Err
  bodyClosed : Bool
deriving DecidableEq, Repr

/-- The URL `fmt.Sprintf("https://jsonplaceholder.typicode.com/users/%d", id)`. -/
def usersURL (id : Int) : String :=
  "https://jsonplaceholder.typicode.com/users/" ++ toString id

/-- The function `GetUser` from `demos/api-call/main.go`.  The `defer resp.Body.Close()`
is registered only after the transport-error check returns, so `bodyClosed`
is `false` on that branch (no response exists there) and `true` on every
branch reached past it. -/
def GetUser (client : HTTPClient) (id : Int) : GetUserResult :=
  let url := usersURL id
  match client url with
  | .error e =>
    { user := { name := "" }, err := some (.wrap "failed to fetch user: " e),
      bodyClosed := false }
  | .ok resp =>
    if resp.statusCode ≠ 200 then
      { user := { name := "" },
        err := some (.mk ("unexpected status code: " ++ toString resp.statusCode)),
        bodyClosed := true }
    else
      match resp.bodyRead with
      | .error e =>
        { user := { name := "" }, err := some (.wrap "failed to read response: " e),
          bodyClosed := true }
      | .ok body =>
        match unmarshalUser body with
        | .error e =>
          { user := { name := "" }, err := some (.wrap "failed to parse user: " e),
            bodyClosed := true }
        | .ok u => { user := u, err := none, bodyClosed := true }

/-- The test double from `demos/api-call/main_test.go`: returns the stored
error if set, else a response with the stored status code and a body whose
read always yields the stored string (`io.NopCloser` over a buffer). -/
def mockHTTPClient.Get (e : Option Err) (statusCode : Int) (body : String) :
    HTTPClient :=
  fun _ =>
    match e with
    | some err => .error err
    | none => .ok { statusCode := statusCode, bodyRead := .ok body }

/-! ### `demos/rng/main.go` — name generation -/

/-- The method `NameGenerator.GenerateName`: the held `StringGenerator` capability is a
state-threading string producer; the result is
`fmt.Sprintf("%s-%s", baseName, suffix)`. -/
def NameGenerator.GenerateName {σ : Type} (generate : σ → String × σ)
    (s : σ) (baseName : String) : String × σ :=
  let (suffix, s1) := generate s
  (baseName ++ "-" ++ suffix, s1)

/-- The test double from `demos/rng/main_test.go`: always returns its stored
value and touches no state. -/
def mockStringGenerator.Generate (value : String) : Unit → String × Unit :=
  fun s => (value, s)

/-- The `const charset` from `RandomStringGenerator.Generate`. -/
def charset : String := "abcdefghijklmnopqrstuvwxyz0123456789"

/-- The `const suffixLen`. -/
def suffixLen : Nat := 5

/-- The loop of `RandomStringGenerator.Generate`: build `n` characters left
to right, each `charset[rng.Intn(len(charset))]`; an out-of-range index is a
Go panic, modelled as `none`. -/
def generateChars {σ : Type} (intn : σ → Nat → Nat × σ) :
    Nat → σ → Option (List Char × σ)
  | 0, s => some ([], s)
  | n + 1, s =>
    let (idx, s1) := intn s charset.length
    match charset.data.get? idx with
    | none => none
    | some c =>
      match generateChars intn n s1 with
      | none => none
      | some (rest, s2) => some (c :: rest, s2)

/-- The method `RandomStringGenerator.Generate`: a 5-character string over `charset`,
consuming the held `*rand.Rand` (abstracted to its `Intn` state transformer). -/
def RandomStringGenerator.Generate {σ : Type} (intn : σ → Nat → Nat × σ)
    (s : σ) : Option (String × σ) :=
  (generateChars intn suffixLen s).map (fun p => (String.mk p.1, p.2))

/-! ### `demos/sleeper/main.go` — the worker -/

/-- Go `time.Second` in nanoseconds (`time.Duration` is an `int64` count of
nanoseconds). -/
def timeSecond : Int := 1000000000

/-- The observable actions `Worker.DoWork` performs, in order: lines printed
to standard output and invocations of the `Sleeper` capability with the
requested duration. -/
inductive WorkEvent where
  | println (line : String)
  | sleepCall (d : Int)
deriving DecidableEq, Repr

/-- The method `Worker.DoWork`: print the start marker, call `sleeper.Sleep(2 *
time.Second)` (threading the capability's state), print the completion
marker, and return; a Go function declared with no results returns the empty
result tuple, modelled as `Unit`. -/
def Worker.DoWork {σ : Type} (sleep : σ → Int → σ) (s : σ) :
    σ × List WorkEvent × Unit :=
  (sleep s (2 * timeSecond),
   [.println "Starting work...",
    .sleepCall (2 * timeSecond),
    .println "Work complete!"],
   ())

/-- The durations `DoWork` requested from its capability, extracted from the
event trace. -/
def sleepDurations : List WorkEvent → List Int
  | [] => []
  | .sleepCall d :: rest => d :: sleepDurations rest
  | .println _ :: rest => sleepDurations rest

/-- The test double from `demos/sleeper/main_test.go`: records the requested
duration in its field instead of sleeping. -/
def mockSleeper.Sleep : Int → Int → Int :=
  fun _recorded d => d

/-! ### Helper lemmas -/

lemma getUser_transport {client : HTTPClient} {id : Int} {e : Err}
    (h : client (usersURL id) = .error e) :
    GetUser client id =
      { user := { name := "" }, err := some (.wrap "failed to fetch user: " e),
        bodyClosed := false } := by
  simp [GetUser, h]

lemma getUser_badStatus {client : HTTPClient} {id : Int} {resp : Response}
    (h : client (usersURL id) = .ok resp) (hne : resp.statusCode ≠ 200) :
    GetUser client id =
      { user := { name := "" },
        err := some (.mk ("unexpected status code: " ++ toString resp.statusCode)),
        bodyClosed := true } := by
  simp [GetUser, h, hne]

lemma getUser_readErr {client : HTTPClient} {id : Int} {resp : Response} {e : Err}
    (h : client (usersURL id) = .ok resp) (hsc : resp.statusCode = 200)
    (hbr : resp.bodyRead = .error e) :
    GetUser client id =
      { user := { name := "" }, err := some (.wrap "failed to read response: " e),
        bodyClosed := true } := by
  simp [GetUser, h, hsc, hbr]

lemma getUser_parseErr {client : HTTPClient} {id : Int} {resp : Response}
    {body : String} {e : Err}
    (h : client (usersURL id) = .ok resp) (hsc : resp.statusCode = 200)
    (hbr : resp.bodyRead = .ok body) (hu : unmarshalUser body = .error e) :
    GetUser client id =
      { user := { name := "" }, err := some (.wrap "failed to parse user: " e),
        bodyClosed := true } := by
  simp [GetUser, h, hsc, hbr, hu]

lemma getUser_ok {client : HTTPClient} {id : Int} {resp : Response}
    {body : String} {u : User}
    (h : client (usersURL id) = .ok resp) (hsc : resp.statusCode = 200)
    (hbr : resp.bodyRead = .ok body) (hu : unmarshalUser body = .ok u) :
    GetUser client id = { user := u, err := none, bodyClosed := true } := by
  simp [GetUser, h, hsc, hbr, hu]

lemma getUser_closes_of_ok {client : HTTPClient} {id : Int} {resp : Response}
    (h : client (usersURL id) = .ok resp) :
    (GetUser client id).bodyClosed = true := by
  by_cases hsc : resp.statusCode = 200
  · cases hbr : resp.bodyRead with
    | error e => rw [getUser_readErr h hsc hbr]
    | ok body =>
      cases hu : unmarshalUser body with
      | error e => rw [getUser_parseErr h hsc hbr hu]
      | ok u => rw [getUser_ok h hsc hbr hu]
  · rw [getUser_badStatus h hsc]

/-! ### The claims -/

/-- Claim C1: for every `HTTPClient` capability and numeric id, `GetUser`
applies exactly this decision sequence in this order — a transport error is
returned wrapped behind `failed to fetch user: `; else a status other than
200 yields the unwrapped error `unexpected status code: <code>`; else a body
read error is returned wrapped behind `failed to read response: `; else a
JSON decode error is returned wrapped behind `failed to parse user: `; else
the decoded record is returned with no error.  In every error case the
returned `User` is the zero record. -/
theorem getUser_decision_sequence (client : HTTPClient) (id : Int) :
    (∀ e : Err, client (usersURL id) = .error e →
      GetUser client id =
        { user := { name := "" },
          err := some (.wrap "failed to fetch user: " e), bodyClosed := false }) ∧
    (∀ resp : Response, client (usersURL id) = .ok resp → resp.statusCode ≠ 200 →
      GetUser client id =
        { user := { name := "" },
          err := some (.mk ("unexpected status code: " ++ toString resp.statusCode)),
          bodyClosed := true }) ∧
    (∀ (resp : Response) (e : Err), client (usersURL id) = .ok resp →
      resp.statusCode = 200 → resp.bodyRead = .error e →
      GetUser client id =
        { user := { name := "" },
          err := some (.wrap "failed to read response: " e), bodyClosed := true }) ∧
    (∀ (resp : Response) (body : String) (e : Err), client (usersURL id) = .ok resp →
      resp.statusCode = 200 → resp.bodyRead = .ok body →
      unmarshalUser body = .error e →
      GetUser client id =
        { user := { name := "" },
          err := some (.wrap "failed to parse user: " e), bodyClosed := true }) ∧
    (∀ (resp : Response) (body : String) (u : User), client (usersURL id) = .ok resp →
      resp.statusCode = 200 → resp.bodyRead = .ok body →
      unmarshalUser body = .ok u →
      GetUser client id = { user := u, err := none, bodyClosed := true }) := by
  refine ⟨?_, ?_, ?_, ?_, ?_⟩
  · intro e h; exact getUser_transport h
  · intro resp h hne; exact getUser_badStatus h hne
  · intro resp e h hsc hbr; exact getUser_readErr h hsc hbr
  · intro resp body e h hsc hbr hu; exact getUser_parseErr h hsc hbr hu
  · intro resp body u h hsc hbr hu; exact getUser_ok h hsc hbr hu

/-- Witness for C1: each of the five branches exercised on a concrete double
from the test file's repertoire. -/
theorem getUser_decision_sequence_witness :
    GetUser (mockHTTPClient.Get (some (.mk "boom")) 0 "") 1 =
      { user := { name := "" },
        err := some (.wrap "failed to fetch user: " (.mk "boom")),
        bodyClosed := false } ∧
    GetUser (mockHTTPClient.Get none 404 "") 1 =
      { user := { name := "" },
        err := some (.mk "unexpected status code: 404"), bodyClosed := true } ∧
    GetUser (fun _ => .ok { statusCode := 200, bodyRead := .error (.mk "read failed") }) 1 =
      { user := { name := "" },
        err := some (.wrap "failed to read response: " (.mk "read failed")),
        bodyClosed := true } ∧
    GetUser (mockHTTPClient.Get none 200 "invalid json") 1 =
      { user := { name := "" },
        err := some (.wrap "failed to parse user: " (.mk "invalid JSON document")),
        bodyClosed := true } ∧
    GetUser (mockHTTPClient.Get none 200 "\x7b\"name\": \"John Doe\"\x7d") 1 =
      { user := { name := "John Doe" }, err := none, bodyClosed := true } := by
  refine ⟨?_, ?_, ?_, ?_, ?_⟩
  · exact (getUser_decision_sequence _ 1).1 (.mk "boom") rfl
  · exact (getUser_decision_sequence _ 1).2.1
      { statusCode := 404, bodyRead := .ok "" } rfl (by decide)
  · exact (getUser_decision_sequence _ 1).2.2.1
      { statusCode := 200, bodyRead := .error (.mk "read failed") }
      (.mk "read failed") rfl rfl rfl
  · exact (getUser_decision_sequence _ 1).2.2.2.1
      { statusCode := 200, bodyRead := .ok "invalid json" } "invalid json"
      (.mk "invalid JSON document") rfl rfl rfl rfl
  · exact (getUser_decision_sequence _ 1).2.2.2.2
      { statusCode := 200, bodyRead := .ok "\x7b\"name\": \"John Doe\"\x7d" }
      "\x7b\"name\": \"John Doe\"\x7d" { name := "John Doe" } rfl rfl rfl rfl

/-- Counterexample to claim C5 as stated: on the transport-error branch the
`return` happens before `defer resp.Body.Close()` is registered (and the
capability returned no response at all), so no `Close` is invoked there. -/
theorem getUser_transport_error_no_close :
    (GetUser (mockHTTPClient.Get (some (.mk "connection refused")) 0 "") 1).bodyClosed
      = false := by
  rfl

/-- Claim C5, amended: in every execution of `GetUser` in which the
capability call returned a response, `Close` is invoked on the response body
before `GetUser` returns — success, non-200 status, body-read failure and
JSON-parse failure alike.  On the transport-error branch no response (hence
no body) exists and nothing is closed. -/
theorem getUser_releases_body (client : HTTPClient) (id : Int) (resp : Response)
    (h : client (usersURL id) = .ok resp) :
    (GetUser client id).bodyClosed = true :=
  getUser_closes_of_ok h

/-- Witness for the amended C5: a concrete 404 double. -/
theorem getUser_releases_body_witness :
    (GetUser (mockHTTPClient.Get none 404 "") 1).bodyClosed = true :=
  getUser_releases_body _ 1 { statusCode := 404, bodyRead := .ok "" } rfl

/-- Claim C6: a double answering status 404 with no transport error makes
`GetUser` return the zero `User` and a leaf error (no wrapped cause) whose
message is exactly `unexpected status code: 404`. -/
theorem getUser_404 (client : HTTPClient) (id : Int) (resp : Response)
    (h : client (usersURL id) = .ok resp) (h404 : resp.statusCode = 404) :
    GetUser client id =
      { user := { name := "" }, err := some (.mk "unexpected status code: 404"),
        bodyClosed := true } ∧
    (Err.mk "unexpected status code: 404").message = "unexpected status code: 404" := by
  refine ⟨?_, rfl⟩
  have := getUser_badStatus h (by rw [h404]; decide)
  rwa [h404] at this

/-- Witness for C6. -/
theorem getUser_404_witness :
    GetUser (mockHTTPClient.Get none 404 "") 1 =
      { user := { name := "" }, err := some (.mk "unexpected status code: 404"),
        bodyClosed := true } ∧
    (Err.mk "unexpected status code: 404").message = "unexpected status code: 404" :=
  getUser_404 _ 1 { statusCode := 404, bodyRead := .ok "" } rfl rfl

/-- Claim C7: a double answering status 200 with body
`\x7b"name": "John Doe"\x7d` and no transport error makes `GetUser` return a
`User` named `John Doe` and no error. -/
theorem getUser_success_john (client : HTTPClient) (id : Int) (resp : Response)
    (h : client (usersURL id) = .ok resp) (hsc : resp.statusCode = 200)
    (hbr : resp.bodyRead = .ok "\x7b\"name\": \"John Doe\"\x7d") :
    GetUser client id =
      { user := { name := "John Doe" }, err := none, bodyClosed := true } :=
  getUser_ok h hsc hbr rfl

/-- Witness for C7. -/
theorem getUser_success_john_witness :
    GetUser (mockHTTPClient.Get none 200 "\x7b\"name\": \"John Doe\"\x7d") 1 =
      { user := { name := "John Doe" }, err := none, bodyClosed := true } :=
  getUser_success_john _ 1
    { statusCode := 200, bodyRead := .ok "\x7b\"name\": \"John Doe\"\x7d" } rfl rfl rfl

/-- Claim C2: for every base name (the empty string included) and every
string the injected capability returns, `GenerateName` returns exactly
`base ++ "-" ++ suffix`; the operation is a total function (it never fails),
and on the literal pairs it yields `my-pod-abc12` and
`nginx-deployment-01234`. -/
theorem generateName_concat :
    (∀ (σ : Type) (generate : σ → String × σ) (s : σ) (base : String),
      (NameGenerator.GenerateName generate s base).1 = base ++ "-" ++ (generate s).1) ∧
    (NameGenerator.GenerateName (mockStringGenerator.Generate "abc12") () "my-pod").1
      = "my-pod-abc12" ∧
    (NameGenerator.GenerateName (mockStringGenerator.Generate "01234") () "nginx-deployment").1
      = "nginx-deployment-01234" :=
  ⟨fun _ _ _ _ => rfl, rfl, rfl⟩

/-- Claim C3: for every `Sleeper` capability, `DoWork` requests exactly one
sleep and its duration is exactly `2 * time.Second`; in particular the
recording double ends up holding `2 * time.Second`. -/
theorem doWork_sleeps_two_seconds :
    (∀ (σ : Type) (sleep : σ → Int → σ) (s : σ),
      sleepDurations (Worker.DoWork sleep s).2.1 = [2 * timeSecond]) ∧
    (∀ d0 : Int, (Worker.DoWork mockSleeper.Sleep d0).1 = 2 * timeSecond) :=
  ⟨fun _ _ _ => rfl, fun _ => rfl⟩

/-- Claim C4: `DoWork` prints the start marker, then invokes the sleep
capability, then prints the completion marker, and returns the constant
empty result tuple (a Go function with no declared results). -/
theorem doWork_sequence (σ : Type) (sleep : σ → Int → σ) (s : σ) :
    (Worker.DoWork sleep s).2 =
      ([.println "Starting work...", .sleepCall (2 * timeSecond),
        .println "Work complete!"], ()) :=
  rfl

/-- Claim C9: each consumer, invoked twice with the same test double and the
same inputs (threading whatever state the double itself carries), returns the
same result both times — the consumers hold no mutable state of their own. -/
theorem consumers_idempotent :
    (∀ (v base : String) (s0 : Unit),
      (NameGenerator.GenerateName (mockStringGenerator.Generate v)
        (NameGenerator.GenerateName (mockStringGenerator.Generate v) s0 base).2 base).1 =
      (NameGenerator.GenerateName (mockStringGenerator.Generate v) s0 base).1) ∧
    (∀ d0 : Int,
      Worker.DoWork mockSleeper.Sleep (Worker.DoWork mockSleeper.Sleep d0).1 =
      Worker.DoWork mockSleeper.Sleep d0) ∧
    (∀ (e : Option Err) (sc : Int) (b : String) (id : Int),
      GetUser (mockHTTPClient.Get e sc b) id = GetUser (mockHTTPClient.Get e sc b) id) :=
  ⟨fun _ _ _ => rfl, fun _ => rfl, fun _ _ _ _ => rfl⟩

lemma generateChars_total {σ : Type} (intn : σ → Nat → Nat × σ)
    (h : ∀ s : σ, (intn s charset.length).1 < charset.length) :
    ∀ (n : Nat) (s : σ), ∃ (cs : List Char) (s2 : σ),
      generateChars intn n s = some (cs, s2) ∧ cs.length = n ∧
      ∀ c ∈ cs, c ∈ charset.data := by
  intro n
  induction n with
  | zero => exact fun s => ⟨[], s, rfl, rfl, by simp⟩
  | succ n ih =>
    intro s
    obtain ⟨cs, s2, heq, hlen, hmem⟩ := ih (intn s charset.length).2
    have hidx : (intn s charset.length).1 < charset.data.length := h s
    refine ⟨charset.data.get ⟨(intn s charset.length).1, hidx⟩ :: cs, s2, ?_, by simp [hlen], ?_⟩
    · simp only [generateChars, List.get?_eq_get hidx, heq]
    · intro c hc
      rcases List.mem_cons.mp hc with hc | hc
      · rw [hc]; exact List.get_mem _ _ _
      · exact hmem c hc

/-- Claim C8: whenever the underlying random source satisfies the `Intn`
contract (its result is below the bound it is given), the production
`Generate` succeeds — no index is ever out of bounds — and returns a string
of exactly 5 characters, each drawn from the 36-character alphanumeric
`charset`.  (Uniformity of the draw is a distribution property of
`math/rand` itself and is outside the embedding.) -/
theorem randomStringGenerator_five_alphanumeric {σ : Type}
    (intn : σ → Nat → Nat × σ)
    (h : ∀ s : σ, (intn s charset.length).1 < charset.length) (s : σ) :
    ∃ (out : String) (s2 : σ),
      RandomStringGenerator.Generate intn s = some (out, s2) ∧
      out.length = suffixLen ∧ charset.length = 36 ∧
      ∀ c ∈ out.data, c ∈ charset.data := by
  obtain ⟨cs, s2, heq, hlen, hmem⟩ := generateChars_total intn h suffixLen s
  exact ⟨String.mk cs, s2, by simp [RandomStringGenerator.Generate, heq], hlen, rfl, hmem⟩

/-- Witness for C8: the always-zero random source. -/
theorem randomStringGenerator_five_alphanumeric_witness :
    ∃ (out : String) (s2 : Unit),
      RandomStringGenerator.Generate (fun (s : Unit) _ => (0, s)) () = some (out, s2) ∧
      out.length = suffixLen ∧ charset.length = 36 ∧
      ∀ c ∈ out.data, c ∈ charset.data :=
  randomStringGenerator_five_alphanumeric (fun s _ => (0, s))
    (by intro s; show (0 : Nat) < charset.length; decide) ()

lemma decodeUserFields_no_match :
    ∀ (fields : List (String × Json)) (u : User),
      fields.all (fun kv => !(eqFoldAscii kv.1 "name")) = true →
      decodeUserFields fields u = .ok u := by
  intro fields
  induction fields with
  | nil => intro u _; rfl
  | cons kv rest ih =>
    intro u hall
    obtain ⟨k, v⟩ := kv
    rw [List.all_cons, Bool.and_eq_true] at hall
    obtain ⟨hk, hrest⟩ := hall
    rw [Bool.not_eq_true'] at hk
    simpa [decodeUserFields, hk] using ih u hrest

/-- Counterexample to claim C10 as stated: `5` is a valid JSON document with
no `name` field, yet `json.Unmarshal` cannot decode a number into the `User`
struct, so `GetUser` returns a parse error rather than a nil error. -/
theorem getUser_json_number_counterexample :
    Json.parse "5" = some (.num "5") ∧
    (GetUser (mockHTTPClient.Get none 200 "5") 1).err =
      some (.wrap "failed to parse user: "
        (.mk "json: cannot unmarshal number into Go value of type main.User")) := by
  exact ⟨rfl, rfl⟩

/-- Claim C10, amended: for every `HTTPClient` double that returns status
200 with a body that parses as a JSON object none of whose keys matches the
`name` field under `encoding/json`'s case-insensitive field matching,
`GetUser` returns a `User` with the empty string as its name and a nil
error — a missing `name` field in an object is not a parse failure.  (A
valid JSON document of any non-object kind other than `null`, such as `5`,
is instead rejected by the decoder.) -/
theorem getUser_object_without_name (client : HTTPClient) (id : Int)
    (resp : Response) (body : String) (fields : List (String × Json))
    (h : client (usersURL id) = .ok resp) (hsc : resp.statusCode = 200)
    (hbr : resp.bodyRead = .ok body)
    (hp : Json.parse body = some (.obj fields))
    (hn : fields.all (fun kv => !(eqFoldAscii kv.1 "name")) = true) :
    GetUser client id =
      { user := { name := "" }, err := none, bodyClosed := true } := by
  refine getUser_ok h hsc hbr ?_
  rw [unmarshalUser, hp]
  exact decodeUserFields_no_match fields { name := "" } hn

/-- Witness for the amended C10: the body `\x7b"other": 1\x7d`. -/
theorem getUser_object_without_name_witness :
    GetUser (mockHTTPClient.Get none 200 "\x7b\"other\": 1\x7d") 1 =
      { user := { name := "" }, err := none, bodyClosed := true } :=
  getUser_object_without_name _ 1
    { statusCode := 200, bodyRead := .ok "\x7b\"other\": 1\x7d" }
    "\x7b\"other\": 1\x7d" [("other", .num "1")] rfl rfl rfl rfl rfl
